import Mathlib

/-!
Verification of the whatomate event-delivery subsystem against its
specification.

The Go source is embedded shallowly: pure functions become Lean functions,
stateful handlers become explicit state-passing functions, machine words are
`Nat` with explicit reduction modulo `2 ^ 32`, byte strings are `List Nat`
(each entry `< 256`), and fallible code returns `Except` or `Option`.
Wall-clock instants and durations are integers counting seconds.
-/

/-! ## Bytes and 32-bit words -/

/-- Reduction of a natural number to a 32-bit word. -/
def w32 (x : Nat) : Nat := x % 4294967296

/-- 32-bit modular addition. -/
def add32 (a b : Nat) : Nat := (a + b) % 4294967296

/-- Bitwise exclusive or (width-preserving on 32-bit inputs). -/
def xor32 (a b : Nat) : Nat := Nat.xor a b

/-- Bitwise conjunction. -/
def and32 (a b : Nat) : Nat := Nat.land a b

/-- Bitwise disjunction. -/
def or32 (a b : Nat) : Nat := Nat.lor a b

/-- Bitwise complement within 32 bits. -/
def not32 (a : Nat) : Nat := Nat.xor a 4294967295

/-- Logical right shift. -/
def shr32 (x n : Nat) : Nat := x / 2 ^ n

/-- Left shift truncated to 32 bits. -/
def shl32 (x n : Nat) : Nat := (x * 2 ^ n) % 4294967296

/-- Right rotation of a 32-bit word. -/
def rotr32 (x n : Nat) : Nat := or32 (shr32 x n) (shl32 x (32 - n))

/-! ## SHA-256 (FIPS 180-4), as used by Go "crypto/sha256" -/

/-- The eight initial hash values of SHA-256. -/
def sha256H0 : List Nat :=
  [1779033703, 3144134277, 1013904242, 2773480762,
   1359893119, 2600822924, 528734635, 1541459225]

/-- The sixty-four SHA-256 round constants. -/
def sha256K : List Nat :=
  [1116352408, 1899447441, 3049323471, 3921009573, 961987163,
   1508970993, 2453635748, 2870763221, 3624381080, 310598401,
   607225278, 1426881987, 1925078388, 2162078206, 2614888103,
   3248222580, 3835390401, 4022224774, 264347078, 604807628,
   770255983, 1249150122, 1555081692, 1996064986, 2554220882,
   2821834349, 2952996808, 3210313671, 3336571891, 3584528711,
   113926993, 338241895, 666307205, 773529912, 1294757372,
   1396182291, 1695183700, 1986661051, 2177026350, 2456956037,
   2730485921, 2820302411, 3259730800, 3345764771, 3516065817,
   3600352804, 4094571909, 275423344, 430227734, 506948616,
   659060556, 883997877, 958139571, 1322822218, 1537002063,
   1747873779, 1955562222, 2024104815, 2227730452, 2361852424,
   2428436474, 2756734187, 3204031479, 3329325298]

/-- Choice function of the SHA-256 round. -/
def ch32 (x y z : Nat) : Nat := xor32 (and32 x y) (and32 (not32 x) z)

/-- Majority function of the SHA-256 round. -/
def maj32 (x y z : Nat) : Nat := xor32 (and32 x y) (xor32 (and32 x z) (and32 y z))

/-- Big sigma 0. -/
def bsig0 (x : Nat) : Nat := xor32 (rotr32 x 2) (xor32 (rotr32 x 13) (rotr32 x 22))

/-- Big sigma 1. -/
def bsig1 (x : Nat) : Nat := xor32 (rotr32 x 6) (xor32 (rotr32 x 11) (rotr32 x 25))

/-- Small sigma 0. -/
def ssig0 (x : Nat) : Nat := xor32 (rotr32 x 7) (xor32 (rotr32 x 18) (shr32 x 3))

/-- Small sigma 1. -/
def ssig1 (x : Nat) : Nat := xor32 (rotr32 x 17) (xor32 (rotr32 x 19) (shr32 x 10))

/-- Big-endian eight-byte encoding of a length value. -/
def be64 (n : Nat) : List Nat :=
  [n / 2 ^ 56 % 256, n / 2 ^ 48 % 256, n / 2 ^ 40 % 256, n / 2 ^ 32 % 256,
   n / 2 ^ 24 % 256, n / 2 ^ 16 % 256, n / 2 ^ 8 % 256, n % 256]

/-- Big-endian four-byte encoding of a 32-bit word. -/
def be32 (n : Nat) : List Nat :=
  [n / 2 ^ 24 % 256, n / 2 ^ 16 % 256, n / 2 ^ 8 % 256, n % 256]

/-- SHA-256 message padding: a `0x80` byte, zero bytes to 56 mod 64, and the
big-endian 64-bit bit length. -/
def padMessage (msg : List Nat) : List Nat :=
  msg ++ [128] ++ List.replicate ((119 - msg.length % 64) % 64) 0 ++ be64 (8 * msg.length)

/-- Packing of consecutive byte quadruples into big-endian 32-bit words. -/
def toWords : List Nat → List Nat
  | a :: b :: c :: d :: rest => (a * 16777216 + b * 65536 + c * 256 + d) :: toWords rest
  | _ => []

/-- Extension of the sixteen block words to the full sixty-four-entry message
schedule; `n` counts the remaining entries to append. -/
def extendSchedule : Nat → List Nat → List Nat
  | 0, w => w
  | n + 1, w =>
      let t := w.length
      extendSchedule n (w ++ [add32 (add32 (ssig1 (w.getD (t - 2) 0)) (w.getD (t - 7) 0))
        (add32 (ssig0 (w.getD (t - 15) 0)) (w.getD (t - 16) 0))])

/-- Working state of the SHA-256 compression loop. -/
structure Sha2State where
  a : Nat
  b : Nat
  c : Nat
  d : Nat
  e : Nat
  f : Nat
  g : Nat
  h : Nat

/-- One round of the SHA-256 compression loop on a constant-and-schedule pair. -/
def sha256Round (st : Sha2State) (kw : Nat × Nat) : Sha2State :=
  let t1 := add32 st.h (add32 (bsig1 st.e) (add32 (ch32 st.e st.f st.g) (add32 kw.1 kw.2)))
  let t2 := add32 (bsig0 st.a) (maj32 st.a st.b st.c)
  { a := add32 t1 t2, b := st.a, c := st.b, d := st.c,
    e := add32 st.d t1, f := st.e, g := st.f, h := st.g }

/-- Compression of one sixteen-word block into the running eight-word digest
state. -/
def compressBlock (st : List Nat) (block : List Nat) : List Nat :=
  let w := extendSchedule 48 block
  let init : Sha2State :=
    { a := st.getD 0 0, b := st.getD 1 0, c := st.getD 2 0, d := st.getD 3 0,
      e := st.getD 4 0, f := st.getD 5 0, g := st.getD 6 0, h := st.getD 7 0 }
  let fin := (sha256K.zip w).foldl sha256Round init
  [add32 (st.getD 0 0) fin.a, add32 (st.getD 1 0) fin.b,
   add32 (st.getD 2 0) fin.c, add32 (st.getD 3 0) fin.d,
   add32 (st.getD 4 0) fin.e, add32 (st.getD 5 0) fin.f,
   add32 (st.getD 6 0) fin.g, add32 (st.getD 7 0) fin.h]

/-- Iterated block compression over a padded message; the fuel argument counts
the sixty-four-byte blocks left to process. -/
def sha256Blocks : Nat → List Nat → List Nat → List Nat
  | 0, st, _ => st
  | fuel + 1, st, msg => sha256Blocks fuel (compressBlock st (toWords (msg.take 64))) (msg.drop 64)

/-- SHA-256 digest (thirty-two bytes) of a byte string. -/
def sha256 (msg : List Nat) : List Nat :=
  let padded := padMessage msg
  ((sha256Blocks (padded.length / 64) sha256H0 padded).map be32).flatten

/-! ## HMAC-SHA-256 (FIPS 198-1), as used by Go "crypto/hmac" -/

/-- Normalization of an HMAC key to the sixty-four-byte SHA-256 block: keys
longer than a block are hashed, and the result is zero-padded. -/
def hmacBlockKey (key : List Nat) : List Nat :=
  let k := if key.length > 64 then sha256 key else key
  k ++ List.replicate (64 - k.length) 0

/-- HMAC-SHA-256 of a message under a key. -/
def hmacSha256 (key msg : List Nat) : List Nat :=
  let k0 := hmacBlockKey key
  let ipadKey := k0.map (fun b => Nat.xor b 54)
  let opadKey := k0.map (fun b => Nat.xor b 92)
  sha256 (opadKey ++ sha256 (ipadKey ++ msg))

/-! ## Hex encoding and UTF-8 bytes -/

/-- Lowercase hexadecimal digit for a value below sixteen. -/
def hexDigit (n : Nat) : Char :=
  if n < 10 then Char.ofNat (48 + n) else Char.ofNat (87 + n)

/-- Two lowercase hexadecimal characters for one byte. -/
def hexByte (b : Nat) : List Char := [hexDigit (b / 16 % 16), hexDigit (b % 16)]

/-- Lowercase hexadecimal rendering of a byte string, as Go "encoding/hex". -/
def hexEncode (bs : List Nat) : String := String.mk ((bs.map hexByte).flatten)

/-- UTF-8 encoding of one character. -/
def utf8Char (c : Char) : List Nat :=
  let n := c.toNat
  if n < 128 then [n]
  else if n < 2048 then [192 + n / 64, 128 + n % 64]
  else if n < 65536 then [224 + n / 4096, 128 + n / 64 % 64, 128 + n % 64]
  else [240 + n / 262144, 128 + n / 4096 % 64, 128 + n / 64 % 64, 128 + n % 64]

/-- UTF-8 bytes of a string, as Go obtains with a "[]byte" conversion. -/
def strBytes (s : String) : List Nat := (s.toList.map utf8Char).flatten

/-! ## JSON values and encoding

The source stores webhook payloads and custom headers in "models.JSONB"
(a JSON object) and serializes them with "encoding/json". The JSON syntax
tree below models those values; the encoder mirrors Go's compact output,
with the escaping rules restricted to the characters the encoder escapes
into two-character or six-character sequences. -/

/-- A JSON value. -/
inductive JVal where
  | str (s : String)
  | num (n : Int)
  | bool (b : Bool)
  | null
  | arr (xs : List JVal)
  | obj (kvs : List (String × JVal))
deriving Repr, BEq

/-- Escaping of one character inside a JSON string literal, following Go's
"encoding/json" (which also escapes angle brackets and ampersands). -/
def jsonEscapeChar (c : Char) : List Char :=
  if c = '"' then ['\\', '"']
  else if c = '\\' then ['\\', '\\']
  else if c = '\n' then ['\\', 'n']
  else if c = '\r' then ['\\', 'r']
  else if c = '\t' then ['\\', 't']
  else if c.toNat < 32 || c = '<' || c = '>' || c = '&' then
    ['\\', 'u', '0', '0', hexDigit (c.toNat / 16 % 16), hexDigit (c.toNat % 16)]
  else [c]

/-- Escaped body of a JSON string literal. -/
def jsonEscape (s : String) : String := String.mk ((s.toList.map jsonEscapeChar).flatten)

mutual

/-- Compact JSON rendering of a value, as Go "json.Marshal". -/
def jsonEncode : JVal → String
  | .str s => "\"" ++ jsonEscape s ++ "\""
  | .num n => toString n
  | .bool b => if b then "true" else "false"
  | .null => "null"
  | .arr xs => "[" ++ jsonEncodeArr xs ++ "]"
  | .obj kvs => "\x7b" ++ jsonEncodeObj kvs ++ "\x7d"

/-- Comma-separated rendering of JSON array elements. -/
def jsonEncodeArr : List JVal → String
  | [] => ""
  | [x] => jsonEncode x
  | x :: rest => jsonEncode x ++ "," ++ jsonEncodeArr rest

/-- Comma-separated rendering of JSON object members. -/
def jsonEncodeObj : List (String × JVal) → String
  | [] => ""
  | [kv] => "\"" ++ jsonEscape kv.1 ++ "\":" ++ jsonEncode kv.2
  | kv :: rest => "\"" ++ jsonEscape kv.1 ++ "\":" ++ jsonEncode kv.2 ++ "," ++ jsonEncodeObj rest

end

/-! ## Outbound webhook requests

Embedding of "sendWebhookRequest" and "computeHMACSignature" from the
webhook dispatch file. An HTTP request is modelled by its method, URL, raw
body bytes, and header list; "http.Header.Set" replaces any earlier value
for the same key, which the model realizes by filtering the key out before
prepending (header keys are taken in canonical form). -/

/-- Signature string for a payload: "sha256=" followed by the lowercase hex
HMAC-SHA-256 of the payload under the secret's UTF-8 bytes. -/
def computeHMACSignature (data : List Nat) (secret : String) : String :=
  "sha256=" ++ hexEncode (hmacSha256 (strBytes secret) data)

/-- Modelled from the spec: "verifyWebhookSignature" (inbound ingress, §4.4)
is absent from the sources; only its test is present. Per the spec it
computes HMAC-SHA-256 of the raw body with the app secret and compares the
"sha256=<hex>" rendering constant-time against the received signature
bytes; a constant-time comparison is functionally byte-string equality. -/
def verifyWebhookSignature (body signature appSecret : List Nat) : Bool :=
  signature == strBytes ("sha256=" ++ hexEncode (hmacSha256 appSecret body))

/-- Header list of an HTTP request; later "Set" calls win. -/
abbrev Headers := List (String × String)

/-- Model of "http.Header.Set": replace any existing value for the key. -/
def setHeader (hs : Headers) (k v : String) : Headers :=
  (k, v) :: hs.filter (fun p => p.1 != k)

/-- Lookup of a header value by key. -/
def getHeader (hs : Headers) (k : String) : Option String :=
  (hs.find? (fun p => p.1 == k)).map Prod.snd

/-- An outbound HTTP request as the webhook sender constructs it. -/
structure HttpRequest where
  method : String
  url : String
  body : List Nat
  headers : Headers
deriving Repr

/-- The custom-header loop of "sendWebhookRequest": each configured header
whose JSON value is a string is set; other values are skipped by the
source's type assertion. -/
def applyCustomHeaders : List (String × JVal) → Headers → Headers
  | [], acc => acc
  | (k, JVal.str v) :: rest, acc => applyCustomHeaders rest (setHeader acc k v)
  | _ :: rest, acc => applyCustomHeaders rest acc

/-- Embedding of "sendWebhookRequest" up to the point the request is handed
to the HTTP client: POST with the payload bytes as body; Content-Type and
User-Agent set first; the custom headers next; and the HMAC signature
header set last, only when the secret is non-empty. -/
def sendWebhookRequest (url : String) (headers : List (String × JVal)) (secret : String)
    (jsonData : List Nat) : HttpRequest :=
  let h0 := setHeader [] "Content-Type" "application/json"
  let h1 := setHeader h0 "User-Agent" "Whatomate-Webhook/1.0"
  let h2 := applyCustomHeaders headers h1
  let h3 := if secret != "" then
    setHeader h2 "X-Webhook-Signature" (computeHMACSignature jsonData secret)
  else h2
  { method := "POST", url := url, body := jsonData, headers := h3 }

/-! ## Webhook delivery rows and the delivery processor

Embedding of the outbox state machine from the delivery processor file.
Times are integers counting seconds; durations from "time" are scaled the
same way. Database rows become a record; each handler becomes a function
from the old row (plus the clock and the attempt's outcome) to the new
row. -/

/-- A webhook delivery row. -/
structure WebhookDelivery where
  orgID : Nat
  webhookID : Nat
  status : String
  attempts : Int
  maxAttempts : Int
  nextAttemptAt : Int
  lastError : String
  lastStatusCode : Int
  processingStartedAt : Option Int
  deliveredAt : Option Int
  url : String
  headers : List (String × JVal)
  secret : String
  payload : JVal
deriving Repr

/-- The retry schedule, in seconds: one minute, five minutes, fifteen
minutes, one hour, six hours, twenty-four hours. -/
def webhookRetrySchedule : List Int := [60, 300, 900, 3600, 21600, 86400]

/-- Embedding of "nextWebhookAttemptDelay". -/
def nextWebhookAttemptDelay (attempt : Int) : Int :=
  if attempt ≤ 0 then webhookRetrySchedule.getD 0 0
  else
    let idx := attempt - 1
    if idx ≥ (webhookRetrySchedule.length : Int) then
      webhookRetrySchedule.getD (webhookRetrySchedule.length - 1) 0
    else webhookRetrySchedule.getD idx.toNat 0

/-- Embedding of "failWebhookDelivery": bump the attempts counter, record
the error, release the processing claim, and either mark the row failed
(terminal) or reschedule it. -/
def failWebhookDelivery (d : WebhookDelivery) (now : Int) (statusCode : Int)
    (errMsg : String) : WebhookDelivery :=
  let attempts := d.attempts + 1
  let maxAttempts := if d.maxAttempts ≤ 0 then (webhookRetrySchedule.length : Int) else d.maxAttempts
  let status := if attempts ≥ maxAttempts then "failed" else "pending"
  let nextAttempt := now + nextWebhookAttemptDelay attempts
  let base := { d with status := status, attempts := attempts, lastError := errMsg,
                       lastStatusCode := statusCode, processingStartedAt := none }
  if status = "pending" then { base with nextAttemptAt := nextAttempt } else base

/-- Outcome of one send attempt as the HTTP client reports it. -/
inductive SendOutcome where
  | response (code : Int)
  | transportError (msg : String)

/-- Error result of "sendWebhookRequest" for an attempt outcome: `none` on a
2xx response, otherwise the status code (zero for transport errors such as
DNS, connect, TLS, timeout, or an SSRF block) and a message. -/
def sendWebhookResult (o : SendOutcome) : Option (Int × String) :=
  match o with
  | .response code =>
      if 200 ≤ code ∧ code < 300 then none
      else some (code, "webhook returned non-2xx status")
  | .transportError msg => some (0, msg)

/-- Embedding of "processWebhookDelivery" for one attempt: on success mark
the row delivered and clear the claim, otherwise apply the failure path. -/
def processWebhookDelivery (d : WebhookDelivery) (now : Int) (o : SendOutcome) : WebhookDelivery :=
  match sendWebhookResult o with
  | none => { d with status := "delivered", deliveredAt := some now,
                     processingStartedAt := none, lastError := "", lastStatusCode := 0 }
  | some (code, msg) => failWebhookDelivery d now code msg

/-- Claim condition of "processPendingDeliveries": a row is picked up when it
is pending and due, or in progress with a stale processing claim (an SQL
comparison against NULL is false). -/
def claimEligible (d : WebhookDelivery) (now staleCutoff : Int) : Bool :=
  (d.status == "pending" && decide (d.nextAttemptAt ≤ now)) ||
  (d.status == "in_progress" &&
    match d.processingStartedAt with
    | some t => decide (t ≤ staleCutoff)
    | none => false)

/-- Selection condition of "RetryFailedWebhookDeliveries": rows of the given
webhook that are failed, or pending or in progress with a non-empty last
error. -/
def retryMatches (orgID webhookID : Nat) (d : WebhookDelivery) : Bool :=
  d.orgID == orgID && d.webhookID == webhookID &&
    (d.status == "failed" ||
      ((d.status == "pending" || d.status == "in_progress") && d.lastError != ""))

/-- Embedding of the "RetryFailedWebhookDeliveries" update on one row. -/
def retryFailedWebhookDeliveries (orgID webhookID : Nat) (now : Int)
    (d : WebhookDelivery) : WebhookDelivery :=
  if retryMatches orgID webhookID d then
    { d with status := "pending", nextAttemptAt := now, processingStartedAt := none,
             lastError := "", lastStatusCode := 0 }
  else d

/-- One attempt of a delivery whose endpoint always answers HTTP 500,
performed exactly when the row becomes due. -/
def alwaysFailStep (d : WebhookDelivery) : WebhookDelivery :=
  processWebhookDelivery d d.nextAttemptAt (.response 500)

/-- The delivery row after `n` consecutive failed attempts. -/
def afterFailures : Nat → WebhookDelivery → WebhookDelivery
  | 0, d => d
  | n + 1, d => afterFailures n (alwaysFailStep d)

/-- The retry delays scheduled over `n` consecutive failed attempts: for each
failure that leaves the row pending, the gap between the attempt's time and
the rescheduled time. The list ends early when a failure is terminal. -/
def failureDelays : Nat → WebhookDelivery → List Int
  | 0, _ => []
  | n + 1, d =>
      let d' := alwaysFailStep d
      if d'.status == "pending" then (d'.nextAttemptAt - d.nextAttemptAt) :: failureDelays n d'
      else []

/-- A freshly enqueued delivery row, as "enqueueWebhookDeliveries" creates
it: pending, zero attempts, six maximum attempts, due immediately. -/
def freshDelivery : WebhookDelivery :=
  { orgID := 1, webhookID := 1, status := "pending", attempts := 0, maxAttempts := 6,
    nextAttemptAt := 0, lastError := "", lastStatusCode := 0, processingStartedAt := none,
    deliveredAt := none, url := "https://example.com/hook", headers := [], secret := "s",
    payload := .null }

deriving instance DecidableEq for Except

/-! ## Character-list string utilities

Small structural-recursion replacements for the Go "strings" helpers the
handlers call, kept kernel-evaluable. -/

/-- Split of a character list on a separator character; mirrors
"strings.Split" (an empty input yields one empty field). -/
def splitOnChar (sep : Char) : List Char → List (List Char)
  | [] => [[]]
  | c :: rest =>
      let r := splitOnChar sep rest
      if c == sep then [] :: r
      else
        match r with
        | h :: t => (c :: h) :: t
        | [] => [[c]]

/-- Test that the second list begins with the first. -/
def listLeads : List Char → List Char → Bool
  | [], _ => true
  | _, [] => false
  | a :: as, b :: bs => a == b && listLeads as bs

/-- Model of "strings.HasPrefix" on strings. -/
def strStartsWith (s t : String) : Bool := listLeads t.toList s.toList

/-- Model of "strings.HasSuffix" on strings. -/
def strEndsWith (s t : String) : Bool := listLeads t.toList.reverse s.toList.reverse

/-- Model of "strings.Contains(s, \"..\")": two adjacent dots anywhere. -/
def hasDotDot (s : String) : Bool :=
  let rec scan : List Char → Bool
    | '.' :: '.' :: _ => true
    | _ :: rest => scan rest
    | [] => false
  scan s.toList

/-- ASCII lowering of one character; hostnames are ASCII, so this matches
"strings.ToLower" on the inputs the validator sees. -/
def asciiLower (c : Char) : Char :=
  if 65 ≤ c.toNat && c.toNat ≤ 90 then Char.ofNat (c.toNat + 32) else c

/-- ASCII lowercase form of a string. -/
def strLower (s : String) : String := String.mk (s.toList.map asciiLower)

/-! ## IP addresses and "net.ParseIP"

Model of the Go standard library's textual IP parsing (modern semantics:
IPv4 literals reject leading zeros) and of the classification methods the
SSRF checks call. An address is four bytes or eight sixteen-bit groups. -/

/-- A parsed IP address. -/
inductive IPAddr where
  | v4 (a b c d : Nat)
  | v6 (groups : List Nat)
deriving Repr, DecidableEq

/-- Decimal digit value of a character. -/
def decDigit (c : Char) : Option Nat :=
  if 48 ≤ c.toNat && c.toNat ≤ 57 then some (c.toNat - 48) else none

/-- Hexadecimal digit value of a character. -/
def hexDigitVal (c : Char) : Option Nat :=
  if 48 ≤ c.toNat && c.toNat ≤ 57 then some (c.toNat - 48)
  else if 97 ≤ c.toNat && c.toNat ≤ 102 then some (c.toNat - 87)
  else if 65 ≤ c.toNat && c.toNat ≤ 70 then some (c.toNat - 55)
  else none

/-- One dotted-quad field: one to three decimal digits, no leading zero,
value at most 255. -/
def parseV4Field (cs : List Char) : Option Nat := do
  if cs.isEmpty || cs.length > 3 then none
  else if cs.length > 1 && cs.headD ' ' == '0' then none
  else
    let ds ← cs.mapM decDigit
    let v := ds.foldl (fun acc d => acc * 10 + d) 0
    if v ≤ 255 then some v else none

/-- IPv4 dotted-quad parsing: exactly four valid fields. -/
def parseIPv4 (cs : List Char) : Option IPAddr :=
  match (splitOnChar '.' cs).mapM parseV4Field with
  | some [a, b, c, d] => some (.v4 a b c d)
  | _ => none

/-- One IPv6 group: one to four hexadecimal digits. -/
def parseV6Group (cs : List Char) : Option Nat := do
  if cs.isEmpty || cs.length > 4 then none
  else
    let ds ← cs.mapM hexDigitVal
    some (ds.foldl (fun acc d => acc * 16 + d) 0)

/-- Expansion of a colon-separated field list into sixteen-bit groups; the
last field may be a dotted quad, contributing two groups. -/
def parseV6Fields : List (List Char) → Option (List Nat)
  | [] => some []
  | [f] =>
      if f.contains '.' then
        match parseIPv4 f with
        | some (.v4 a b c d) => some [a * 256 + b, c * 256 + d]
        | _ => none
      else (parseV6Group f).map ([·])
  | f :: rest => do
      let g ← parseV6Group f
      let gs ← parseV6Fields rest
      some (g :: gs)

/-- Location of the first "::" in a character list, splitting the list
around it. -/
def splitEllipsis : List Char → Option (List Char × List Char)
  | ':' :: ':' :: rest => some ([], rest)
  | c :: rest => (splitEllipsis rest).map (fun p => (c :: p.1, p.2))
  | [] => none

/-- IPv6 textual parsing: colon-separated hexadecimal groups, at most one
"::" standing for one or more zero groups, and an optional trailing dotted
quad; zone suffixes are rejected, as "net.ParseIP" rejects them. -/
def parseIPv6 (cs : List Char) : Option IPAddr :=
  if cs.contains '%' then none
  else
    match splitEllipsis cs with
    | some (left, right) =>
        if (splitEllipsis right).isSome then none
        else do
          let lg ← if left.isEmpty then some [] else parseV6Fields (splitOnChar ':' left)
          let rg ← if right.isEmpty then some [] else parseV6Fields (splitOnChar ':' right)
          if lg.length + rg.length ≤ 7 then
            some (.v6 (lg ++ List.replicate (8 - lg.length - rg.length) 0 ++ rg))
          else none
    | none => do
        let gs ← parseV6Fields (splitOnChar ':' cs)
        if gs.length = 8 then some (.v6 gs) else none

/-- Model of "net.ParseIP": the first dot or colon selects the family. -/
def parseIP (s : String) : Option IPAddr :=
  let rec pick : List Char → Option IPAddr
    | [] => none
    | '.' :: _ => parseIPv4 s.toList
    | ':' :: _ => parseIPv6 s.toList
    | _ :: rest => pick rest
  pick s.toList

/-- Model of "IP.To4": the four-byte form of a v4 address or of a
v4-mapped v6 address. -/
def ipToV4 : IPAddr → Option (Nat × Nat × Nat × Nat)
  | .v4 a b c d => some (a, b, c, d)
  | .v6 gs =>
      if gs.take 5 == [0, 0, 0, 0, 0] && gs.getD 5 0 == 65535 then
        some (gs.getD 6 0 / 256, gs.getD 6 0 % 256, gs.getD 7 0 / 256, gs.getD 7 0 % 256)
      else none

/-- Model of "IP.IsLoopback": 127.0.0.0/8 or ::1. -/
def ipIsLoopback (ip : IPAddr) : Bool :=
  match ipToV4 ip with
  | some (a, _, _, _) => a == 127
  | none =>
      match ip with
      | .v6 gs => gs == [0, 0, 0, 0, 0, 0, 0, 1]
      | _ => false

/-- Model of "IP.IsPrivate": 10.0.0.0/8, 172.16.0.0/12, 192.168.0.0/16, or
fc00::/7. -/
def ipIsPrivate (ip : IPAddr) : Bool :=
  match ipToV4 ip with
  | some (a, b, _, _) => a == 10 || (a == 172 && Nat.land b 240 == 16) || (a == 192 && b == 168)
  | none =>
      match ip with
      | .v6 gs => Nat.land (gs.getD 0 0 / 256) 254 == 252
      | _ => false

/-- Model of "IP.IsLinkLocalUnicast": 169.254.0.0/16 or fe80::/10. -/
def ipIsLinkLocalUnicast (ip : IPAddr) : Bool :=
  match ipToV4 ip with
  | some (a, b, _, _) => a == 169 && b == 254
  | none =>
      match ip with
      | .v6 gs => Nat.land (gs.getD 0 0) 65472 == 65152
      | _ => false

/-- Model of "IP.IsLinkLocalMulticast": 224.0.0.0/24 or ff02::/16. -/
def ipIsLinkLocalMulticast (ip : IPAddr) : Bool :=
  match ipToV4 ip with
  | some (a, b, c, _) => a == 224 && b == 0 && c == 0
  | none =>
      match ip with
      | .v6 gs => gs.getD 0 0 / 256 == 255 && Nat.land (gs.getD 0 0 % 256) 15 == 2
      | _ => false

/-- Model of "IP.IsUnspecified": 0.0.0.0 or ::. -/
def ipIsUnspecified (ip : IPAddr) : Bool :=
  match ip with
  | .v4 a b c d => a == 0 && b == 0 && c == 0 && d == 0
  | .v6 gs => gs == [0, 0, 0, 0, 0, 0, 0, 0]

/-- The disjunction of range checks both SSRF guards apply. -/
def ipIsBlocked (ip : IPAddr) : Bool :=
  ipIsLoopback ip || ipIsPrivate ip || ipIsLinkLocalUnicast ip ||
    ipIsLinkLocalMulticast ip || ipIsUnspecified ip

/-! ## Webhook URL validation and SSRF-safe dialing -/

/-- A webhook URL after "url.Parse": its scheme and hostname (brackets
around an IPv6 literal already stripped, as "URL.Hostname" strips them). -/
structure ParsedURL where
  scheme : String
  hostname : String
deriving Repr, DecidableEq

/-- Embedding of "validateWebhookURL": scheme and hostname checks always
apply; the internal-address checks apply only when internal URLs are not
allowed. -/
def validateWebhookURL (u : ParsedURL) (allowInternal : Bool) : Except String Unit :=
  if u.scheme != "https" && u.scheme != "http" then
    .error "URL scheme must be http or https"
  else if u.hostname == "" then
    .error "URL must have a hostname"
  else if !allowInternal then
    let lower := strLower u.hostname
    if lower == "localhost" || lower == "0.0.0.0" || strEndsWith lower ".local" ||
        strEndsWith lower ".internal" then
      .error "URL must not point to internal addresses"
    else
      match parseIP u.hostname with
      | some ip =>
          if ipIsBlocked ip then .error "URL must not point to internal addresses"
          else .ok ()
      | none => .ok ()
  else .ok ()

/-- Result of a dial attempt. -/
inductive DialOutcome where
  | connect (addr : String)
  | refuse (msg : String)
deriving Repr, DecidableEq

/-- Embedding of the dial function returned by "SSRFSafeDialer", applied to
the addresses DNS resolution produced for the host part of `addr`: with
internal addresses allowed it is the plain dialer; otherwise a failed or
empty resolution refuses, any blocked resolved address refuses, and the
connection goes to the first resolved address. -/
def ssrfDial (allowInternal : Bool) (addr : String) (resolved : List String) : DialOutcome :=
  if allowInternal then .connect addr
  else
    match resolved with
    | [] => .refuse "lookup failed"
    | a :: rest =>
        if (a :: rest).any (fun s =>
            match parseIP s with
            | some ip => ipIsBlocked ip
            | none => false) then
          .refuse "connection to private address is not allowed"
        else .connect a

/-! ## Media cleanup sweeper

Embedding of the per-path decision inside "cleanupOrganizationMedia". The
filesystem is a function from absolute paths to stat results; paths follow
the Unix rules of Go's "path/filepath" ("os.PathSeparator" is a slash). -/

/-- Stat result for a path: directory flag and modification time. -/
structure FsStat where
  isDir : Bool
  modTime : Int
deriving Repr

/-- Model of "filepath.Clean" for Unix paths: drop empty and dot elements,
let a dot-dot element consume a preceding element (or vanish at the root),
and reassemble. The first argument lists the remaining path elements, the
second the processed stack in reverse. -/
def cleanStack (rooted : Bool) : List (List Char) → List (List Char) → List (List Char)
  | [], stack => stack.reverse
  | c :: rest, stack =>
      if c == [] || c == ['.'] then cleanStack rooted rest stack
      else if c == ['.', '.'] then
        match stack with
        | top :: stack' =>
            if top == ['.', '.'] then cleanStack rooted rest (c :: stack)
            else cleanStack rooted rest stack'
        | [] => if rooted then cleanStack rooted rest [] else cleanStack rooted rest [c]
      else cleanStack rooted rest (c :: stack)

/-- Model of "filepath.Clean" on a path string. -/
def cleanPath (p : String) : String :=
  let cs := p.toList
  let rooted := cs.headD ' ' == '/'
  let stack := cleanStack rooted (splitOnChar '/' cs) []
  if stack.isEmpty then (if rooted then "/" else ".")
  else String.mk ((if rooted then ['/'] else []) ++ (stack.intersperse ['/']).flatten)

/-- Model of "filepath.Join" on two elements: join the non-empty elements
with a slash and clean the result. -/
def joinPath (a b : String) : String :=
  if a == "" && b == "" then ""
  else if a == "" then cleanPath b
  else if b == "" then cleanPath a
  else cleanPath (a ++ "/" ++ b)

/-- Model of "filepath.Abs": clean an absolute path, or join it to the
working directory. -/
def absPath (cwd p : String) : String :=
  if strStartsWith p "/" then cleanPath p else joinPath cwd p

/-- Decision the sweeper takes for one referenced media path. -/
inductive CleanupDecision where
  | skipSuspicious
  | skipOutsideBase
  | skipMissing
  | skipDir
  | skipFresh
  | delete
deriving Repr, DecidableEq

/-- The absolute resolution of a referenced media path against the media
root: "filepath.Abs(filepath.Join(baseAbs, relPath))" with
"baseAbs = filepath.Abs(basePath)". -/
def mediaFullAbs (cwd basePath relPath : String) : String :=
  absPath cwd (joinPath (absPath cwd basePath) relPath)

/-- The sweeper's containment check: the resolved path extends the absolute
media root by a separator, or equals it. -/
def mediaInsideBase (cwd basePath relPath : String) : Bool :=
  strStartsWith (mediaFullAbs cwd basePath relPath) (absPath cwd basePath ++ "/") ||
    mediaFullAbs cwd basePath relPath == absPath cwd basePath

/-- Embedding of the per-path body of "cleanupOrganizationMedia": reject
paths containing two adjacent dots, resolve against the absolute media
root, require the resolved path to sit under the root, stat it, skip
missing entries, directories, and files modified after the cutoff, and
delete what remains. -/
def mediaPathDecision (cwd basePath relPath : String) (cutoff : Int)
    (fs : String → Option FsStat) : CleanupDecision :=
  if hasDotDot relPath then .skipSuspicious
  else if !mediaInsideBase cwd basePath relPath then .skipOutsideBase
  else
    match fs (mediaFullAbs cwd basePath relPath) with
    | none => .skipMissing
    | some st =>
        if st.isDir then .skipDir
        else if st.modTime > cutoff then .skipFresh
        else .delete

/-! ## Interactive button rendering

Embedding of "SendInteractiveButtons" up to the provider payload. Button
titles are byte strings, because Go's "title[:20]" slices bytes. -/

/-- A button passed to the sender. -/
structure WAButton where
  id : String
  title : List Nat
deriving Repr

/-- The interactive payload shape the provider receives. -/
inductive InteractivePayload where
  | buttonMsg (bodyText : String) (buttons : List (String × List Nat))
  | listMsg (bodyText : String) (menuButton : String) (sectionTitle : String)
      (rows : List (String × List Nat))
deriving Repr, DecidableEq

/-- Embedding of "SendInteractiveButtons": reject an empty list and more
than ten buttons; up to three buttons render in the "button" format with
titles truncated to twenty bytes; four to ten render in the "list" format
with row titles truncated to twenty-four bytes. -/
def sendInteractiveButtons (bodyText : String) (buttons : List WAButton) :
    Except String InteractivePayload :=
  if buttons.length == 0 then .error "at least one button is required"
  else if buttons.length > 10 then .error "maximum 10 buttons allowed"
  else if buttons.length ≤ 3 then
    .ok (.buttonMsg bodyText (buttons.map fun b => (b.id, b.title.take 20)))
  else
    .ok (.listMsg bodyText "Select an option" "Options"
      (buttons.map fun b => (b.id, b.title.take 24)))

/-! ## WebSocket authentication

Embedding of "WebSocketHandler" and "validateWSToken". The JWT library is
modelled at the HS256 level: a token carries its claims, an optional
expiry, and a MAC over the claims' canonical JSON; the claims structure
"middleware.JWTClaims" is not among the sources and is modelled from the
spec ("a signed short-lived token ... validated; on success the client
enters the registry with (user_id, tenant_id)"). -/

/-- The claims a WebSocket token carries. -/
structure WSClaims where
  userID : String
  organizationID : String
deriving Repr, DecidableEq

/-- Canonical signing bytes of a token's claims. -/
def wsClaimsBytes (c : WSClaims) (exp : Option Int) : List Nat :=
  strBytes (jsonEncode (.obj
    ([("user_id", .str c.userID), ("organization_id", .str c.organizationID)] ++
      match exp with
      | some e => [("exp", .num e)]
      | none => [])))

/-- A WebSocket token: claims, optional expiry, and MAC. -/
structure WSToken where
  claims : WSClaims
  exp : Option Int
  mac : List Nat
deriving Repr

/-- HS256 signing of claims under the configured secret. -/
def signWSToken (secret : String) (c : WSClaims) (exp : Option Int) : WSToken :=
  { claims := c, exp := exp, mac := hmacSha256 (strBytes secret) (wsClaimsBytes c exp) }

/-- Embedding of "validateWSToken": the MAC must verify under the
configured secret and the token must not be expired. -/
def validateWSToken (secret : String) (now : Int) (t : WSToken) : Bool :=
  (t.mac == hmacSha256 (strBytes secret) (wsClaimsBytes t.claims t.exp)) &&
    (match t.exp with
     | some e => decide (now < e)
     | none => true)

/-- Result of a WebSocket upgrade request: either a 401 envelope before any
upgrade, or a client registered in the hub under the claims' identifiers. -/
inductive WSResult where
  | unauthorized (msg : String)
  | registered (userID organizationID : String)
deriving Repr, DecidableEq

/-- Embedding of "WebSocketHandler": a missing token or a failed validation
answers 401 Unauthorized without upgrading; a valid token registers the
client with the user and organization from the claims. -/
def webSocketHandler (secret : String) (now : Int) (token : Option WSToken) : WSResult :=
  match token with
  | none => .unauthorized "Missing token"
  | some t =>
      if validateWSToken secret now t then
        .registered t.claims.userID t.claims.organizationID
      else .unauthorized "Invalid token"

/-! ## Webhook CRUD: create and update

Embedding of "CreateWebhook" and "UpdateWebhook" after request decoding.
The request's URL field is parsed form ("none" models the empty string);
header maps arrive as string pairs, as the JSON request type dictates. -/

/-- A stored webhook row. -/
structure WebhookRecord where
  name : String
  url : ParsedURL
  events : List String
  headers : List (String × JVal)
  secret : String
  isActive : Bool
deriving Repr

/-- A decoded create or update request body. -/
structure WebhookReq where
  name : String
  url : Option ParsedURL
  events : List String
  headers : Option (List (String × String))
  secret : String
  isActive : Bool
deriving Repr

/-- Modelled from the spec: "generateVerifyToken" is not among the sources;
the call site's comment describes it as the 32-byte hex generator, so it
renders thirty-two entropy bytes in hexadecimal. -/
def generateVerifyToken (entropy : Nat → Nat) : String :=
  hexEncode ((List.range 32).map (fun i => entropy i % 256))

/-- Embedding of "CreateWebhook": name and URL are required, the URL must
validate, at least one event must be selected, and an empty secret is
replaced by a generated one; the created row is active. -/
def createWebhook (req : WebhookReq) (allowInternal : Bool) (entropy : Nat → Nat) :
    Except String WebhookRecord :=
  if req.name == "" || req.url.isNone then .error "name and url are required"
  else
    match req.url with
    | none => .error "name and url are required"
    | some u =>
        match validateWebhookURL u allowInternal with
        | .error e => .error e
        | .ok _ =>
            if req.events.length == 0 then .error "at least one event must be selected"
            else
              let secret := if req.secret == "" then generateVerifyToken entropy else req.secret
              .ok { name := req.name, url := u, events := req.events,
                    headers := (req.headers.getD []).map
                      (fun (kv : String × String) => (kv.1, JVal.str kv.2)),
                    secret := secret, isActive := true }

/-- The tail of "UpdateWebhook" once the URL question is settled: events,
headers, and secret update only when the request provides them, and the
active flag is always taken from the request. -/
def updateWebhookRest (w : WebhookRecord) (req : WebhookReq) : WebhookRecord :=
  let w1 := if req.events.length > 0 then { w with events := req.events } else w
  let w2 :=
    match req.headers with
    | some hs => { w1 with headers := hs.map (fun (kv : String × String) => (kv.1, JVal.str kv.2)) }
    | none => w1
  let w3 := if req.secret != "" then { w2 with secret := req.secret } else w2
  { w3 with isActive := req.isActive }

/-- Embedding of "UpdateWebhook": the name updates when non-empty, a
provided URL must validate before it replaces the old one, and the
remaining fields follow `updateWebhookRest`. -/
def updateWebhook (w : WebhookRecord) (req : WebhookReq) (allowInternal : Bool) :
    Except String WebhookRecord :=
  let w1 := if req.name != "" then { w with name := req.name } else w
  match req.url with
  | some u =>
      match validateWebhookURL u allowInternal with
      | .error e => .error e
      | .ok _ => .ok (updateWebhookRest { w1 with url := u } req)
  | none => .ok (updateWebhookRest w1 req)

/-- The outbound delivery envelope, as "enqueueWebhookDeliveries" builds it
before marshalling: delivery id, event, RFC3339 timestamp, and data. -/
def envelopeJson (deliveryID event timestamp : String) (data : JVal) : JVal :=
  .obj [("delivery_id", .str deliveryID), ("event", .str event),
        ("timestamp", .str timestamp), ("data", data)]

/-- A delivery row as "enqueueWebhookDeliveries" creates it from a webhook
configuration and an envelope: pending, no attempts, six maximum attempts,
due immediately, payload set to the marshalled envelope (the JSON
round-trip into "models.JSONB" preserves the value). -/
def enqueuedDelivery (orgID webhookID : Nat) (url : String) (headers : List (String × JVal))
    (secret : String) (deliveryID event timestamp : String) (data : JVal)
    (now : Int) : WebhookDelivery :=
  { orgID := orgID, webhookID := webhookID, status := "pending", attempts := 0,
    maxAttempts := 6, nextAttemptAt := now, lastError := "", lastStatusCode := 0,
    processingStartedAt := none, deliveredAt := none, url := url, headers := headers,
    secret := secret, payload := envelopeJson deliveryID event timestamp data }

/-- The HTTP request one attempt of a delivery sends, as
"processWebhookDelivery" builds it: the row's payload marshalled to JSON
and posted to the row's URL with the row's headers and secret. -/
def deliveryHttpRequest (d : WebhookDelivery) : HttpRequest :=
  sendWebhookRequest d.url d.headers d.secret (strBytes (jsonEncode d.payload))

/-! # Theorems -/

/-! ## Header map lemmas -/

/-- Setting a header makes it the value returned for its key. -/
theorem getHeader_setHeader_same (hs : Headers) (k v : String) :
    getHeader (setHeader hs k v) k = some v := by
  simp [getHeader, setHeader]

/-- A find on a list filtered by a different key is unchanged. -/
theorem find_filter_ne (hs : Headers) (k k' : String) (h : k' ≠ k) :
    List.find? (fun p => p.1 == k') (hs.filter (fun p => p.1 != k)) =
    List.find? (fun p => p.1 == k') hs := by
  induction hs with
  | nil => rfl
  | cons p rest ih =>
      by_cases hk : p.1 = k
      · have h1 : (p.1 != k) = false := by simp [hk]
        have h2 : (p.1 == k') = false := by simp [hk]; exact fun hh => h hh.symm
        simp [List.filter_cons, h1, List.find?_cons, h2, ih]
      · have h1 : (p.1 != k) = true := by simp [hk]
        by_cases hk' : p.1 = k'
        · simp [List.filter_cons, h1, List.find?_cons, hk', h]
        · have h2 : (p.1 == k') = false := by simp [hk']
          simp [List.filter_cons, h1, List.find?_cons, h2, ih]

/-- Setting a header leaves other keys unchanged. -/
theorem getHeader_setHeader_other (hs : Headers) (k k' v : String) (h : k' ≠ k) :
    getHeader (setHeader hs k v) k' = getHeader hs k' := by
  have h2 : (k == k') = false := by simp; exact fun hh => h hh.symm
  simp only [getHeader, setHeader, List.find?_cons, h2]
  rw [find_filter_ne hs k k' h]

/-- The custom-header loop does not touch keys the configuration does not
mention. -/
theorem applyCustomHeaders_not_mem (headers : List (String × JVal)) (acc : Headers)
    (k : String) (h : k ∉ headers.map Prod.fst) :
    getHeader (applyCustomHeaders headers acc) k = getHeader acc k := by
  induction headers generalizing acc with
  | nil => rfl
  | cons p rest ih =>
      obtain ⟨pk, pv⟩ := p
      simp only [List.map_cons, List.mem_cons, not_or] at h
      cases pv
      case str v =>
        show getHeader (applyCustomHeaders rest (setHeader acc pk v)) k = getHeader acc k
        rw [ih _ h.2, getHeader_setHeader_other _ _ _ _ h.1]
      all_goals exact ih _ h.2

/-- With duplicate-free configured keys, the custom-header loop installs
every string-valued configured header. -/
theorem applyCustomHeaders_mem (headers : List (String × JVal)) (acc : Headers)
    (k v : String) (hnd : (headers.map Prod.fst).Nodup)
    (hmem : (k, JVal.str v) ∈ headers) :
    getHeader (applyCustomHeaders headers acc) k = some v := by
  induction headers generalizing acc with
  | nil => cases hmem
  | cons p rest ih =>
      obtain ⟨pk, pv⟩ := p
      simp only [List.map_cons, List.nodup_cons] at hnd
      rcases List.mem_cons.mp hmem with hhead | htail
      · injection hhead with h1 h2
        subst h1
        subst h2
        show getHeader (applyCustomHeaders rest (setHeader acc k v)) k = some v
        rw [applyCustomHeaders_not_mem _ _ _ hnd.1]
        exact getHeader_setHeader_same _ _ _
      · cases pv
        case str w =>
          show getHeader (applyCustomHeaders rest (setHeader acc pk w)) k = some v
          exact ih _ hnd.2 htail
        all_goals exact ih _ hnd.2 htail

/-! ## Hex and token length lemmas -/

/-- The hex rendering of a byte list has two characters per byte. -/
theorem hexChars_length (bs : List Nat) : ((bs.map hexByte).flatten).length = 2 * bs.length := by
  induction bs with
  | nil => rfl
  | cons b rest ih => simp [hexByte, ih]; omega

/-- A generated webhook verify token is never the empty string. -/
theorem generateVerifyToken_ne_empty (entropy : Nat → Nat) : generateVerifyToken entropy ≠ "" := by
  intro h
  have h2 := congrArg (fun s => s.data.length) h
  simp only [generateVerifyToken, hexEncode] at h2
  rw [hexChars_length] at h2
  simp at h2

/-! ## Webhook signature lemmas (C1 context)

The round-trip and signature-tamper halves of the signature property are
functional facts about the embedding; the body- and secret-tamper halves
are collision statements about HMAC-SHA-256 and are not settled here. -/

/-- Verification succeeds on the signature computed from the same body and
secret. -/
theorem verifyWebhookSignature_roundtrip (body : List Nat) (secret : String) :
    verifyWebhookSignature body (strBytes (computeHMACSignature body secret))
      (strBytes secret) = true := by
  simp [verifyWebhookSignature, computeHMACSignature]

/-- Verification fails on any signature other than the computed one; in
particular on every in-place mutation of the correct signature and on any
signature missing the "sha256=" lead-in. -/
theorem verifyWebhookSignature_ne (body sig secret : List Nat)
    (h : sig ≠ strBytes ("sha256=" ++ hexEncode (hmacSha256 secret body))) :
    verifyWebhookSignature body sig secret = false := by
  simp [verifyWebhookSignature, h]

/-- Replacing one list entry by a different value yields a different list. -/
theorem listMutate_ne (l : List Nat) (i b : Nat) (hi : i < l.length)
    (hb : l[i]? ≠ some b) : l.set i b ≠ l := by
  intro h
  apply hb
  calc l[i]? = (l.set i b)[i]? := by rw [h]
    _ = some b := List.getElem?_set_self hi

/-- A single-byte in-place mutation of the correct signature makes
verification fail. -/
theorem verifyWebhookSignature_sig_mutated (body : List Nat) (secret : String)
    (i b : Nat)
    (hi : i < (strBytes (computeHMACSignature body secret)).length)
    (hb : (strBytes (computeHMACSignature body secret))[i]? ≠ some b) :
    verifyWebhookSignature body ((strBytes (computeHMACSignature body secret)).set i b)
      (strBytes secret) = false := by
  apply verifyWebhookSignature_ne
  exact listMutate_ne _ _ _ hi hb

/-! ## Delivery failure path lemmas -/

/-- The delay selected for the next attempt after `a` previous attempts,
when `a` is within the schedule. -/
theorem nextWebhookAttemptDelay_eq (a : Int) (h0 : 0 ≤ a) (h6 : a < 6) :
    nextWebhookAttemptDelay (a + 1) = webhookRetrySchedule.getD a.toNat 0 := by
  unfold nextWebhookAttemptDelay
  have h1 : ¬ a + 1 ≤ 0 := by omega
  rw [if_neg h1]
  have hlen : (webhookRetrySchedule.length : Int) = 6 := by decide
  have h2 : ¬ a + 1 - 1 ≥ (webhookRetrySchedule.length : Int) := by rw [hlen]; omega
  rw [if_neg h2]
  have h3 : a + 1 - 1 = a := by omega
  rw [h3]

/-- Behaviour of the failure path: the attempts counter is bumped; the row
is terminal exactly when the bumped counter reaches the maximum, and
otherwise returns to pending with the scheduled delay. -/
theorem failWebhookDelivery_spec (d : WebhookDelivery) (now code : Int) (msg : String)
    (hmax : 0 < d.maxAttempts) (hatt : 0 ≤ d.attempts) :
    (failWebhookDelivery d now code msg).attempts = d.attempts + 1 ∧
    (d.maxAttempts ≤ d.attempts + 1 → (failWebhookDelivery d now code msg).status = "failed") ∧
    (d.attempts + 1 < d.maxAttempts →
      (failWebhookDelivery d now code msg).status = "pending" ∧
      (d.attempts < 6 →
        (failWebhookDelivery d now code msg).nextAttemptAt =
          now + webhookRetrySchedule.getD d.attempts.toNat 0)) := by
  unfold failWebhookDelivery
  have hm : ¬ d.maxAttempts ≤ 0 := by omega
  simp only [if_neg hm]
  by_cases hf : d.attempts + 1 ≥ d.maxAttempts
  · rw [if_pos hf]
    have hs : ¬ ("failed" : String) = "pending" := by decide
    rw [if_neg hs]
    refine ⟨rfl, fun _ => rfl, fun hlt => absurd hf (by omega)⟩
  · rw [if_neg hf]
    have hs : ("pending" : String) = "pending" := rfl
    rw [if_pos hs]
    refine ⟨rfl, fun hle => absurd hle (by omega), fun _ => ⟨rfl, fun h6 => ?_⟩⟩
    show now + nextWebhookAttemptDelay (d.attempts + 1) = _
    rw [nextWebhookAttemptDelay_eq d.attempts hatt h6]

/-! ## C3: exponential backoff trace -/

/-- C3 counterexample: for a delivery with six maximum attempts against an
endpoint that always answers 500, only five retry delays are ever
scheduled (one minute through six hours); the twenty-four-hour entry is
never used, and the row turns failed on the sixth failure, so the claimed
six-delay trace with a seventh terminal failure does not occur. -/
theorem webhookBackoffTrace_counterexample :
    (afterFailures 6 freshDelivery).status = "failed" ∧
    failureDelays 6 freshDelivery = [60, 300, 900, 3600, 21600] ∧
    failureDelays 6 freshDelivery ≠ [60, 300, 900, 3600, 21600, 86400] := by decide

/-- C3 (amended): for a webhook delivery with six maximum attempts whose
endpoint always returns HTTP 500, the scheduled retry delays between
consecutive attempts are one minute, five minutes, fifteen minutes, one
hour, and six hours; the row stays pending through the first five
failures, becomes failed (terminal) on the sixth, is then never claimed by
the delivery processor, and returns to pending with an immediate next
attempt only through the manual retry action. -/
theorem webhookBackoffTrace :
    failureDelays 6 freshDelivery = [60, 300, 900, 3600, 21600] ∧
    (∀ k, k ≤ 5 → (afterFailures k freshDelivery).status = "pending") ∧
    (afterFailures 6 freshDelivery).status = "failed" ∧
    (afterFailures 6 freshDelivery).attempts = 6 ∧
    (∀ now staleCutoff : Int, claimEligible (afterFailures 6 freshDelivery) now staleCutoff = false) ∧
    (retryFailedWebhookDeliveries 1 1 777 (afterFailures 6 freshDelivery)).status = "pending" ∧
    (retryFailedWebhookDeliveries 1 1 777 (afterFailures 6 freshDelivery)).nextAttemptAt = 777 ∧
    (retryFailedWebhookDeliveries 1 1 777 (afterFailures 6 freshDelivery)).attempts = 6 := by
  refine ⟨by decide, by decide, by decide, by decide, ?_, by decide, by decide, by decide⟩
  intro now staleCutoff
  have hst : (afterFailures 6 freshDelivery).status = "failed" := by decide
  have hps : (afterFailures 6 freshDelivery).processingStartedAt = none := by decide
  simp [claimEligible, hst, hps]

/-- Concrete instantiation of the bounded and quantified parts of the
backoff trace theorem. -/
theorem webhookBackoffTrace_witness :
    (afterFailures 3 freshDelivery).status = "pending" ∧
    claimEligible (afterFailures 6 freshDelivery) 12345 99 = false :=
  ⟨webhookBackoffTrace.2.1 3 (by decide), webhookBackoffTrace.2.2.2.2.1 12345 99⟩

/-! ## C4: single-attempt outcome transition -/

/-- C4: one attempt of a delivery either succeeds with a 2xx status, in
which case the row is marked delivered at the current time with the
processing claim released, or fails, in which case the attempts counter is
bumped and the row is terminal exactly when the bumped counter reaches the
maximum, otherwise pending again after the scheduled delay for the
pre-increment attempts count. -/
theorem processWebhookDelivery_transition (d : WebhookDelivery) (now : Int) (o : SendOutcome)
    (hmax : 0 < d.maxAttempts) (hatt : 0 ≤ d.attempts) :
    (∀ code, o = .response code → 200 ≤ code → code < 300 →
      processWebhookDelivery d now o =
        { d with status := "delivered", deliveredAt := some now, processingStartedAt := none,
                 lastError := "", lastStatusCode := 0 }) ∧
    (sendWebhookResult o ≠ none →
      (processWebhookDelivery d now o).attempts = d.attempts + 1 ∧
      (d.maxAttempts ≤ d.attempts + 1 →
        (processWebhookDelivery d now o).status = "failed") ∧
      (d.attempts + 1 < d.maxAttempts →
        (processWebhookDelivery d now o).status = "pending" ∧
        (d.attempts < 6 →
          (processWebhookDelivery d now o).nextAttemptAt =
            now + webhookRetrySchedule.getD d.attempts.toNat 0))) := by
  constructor
  · intro code ho h1 h2
    subst ho
    simp only [processWebhookDelivery, sendWebhookResult]
    rw [if_pos ⟨h1, h2⟩]
  · intro hne
    cases o with
    | response code =>
        by_cases hc : 200 ≤ code ∧ code < 300
        · exact absurd (by simp [sendWebhookResult, hc.1, hc.2]) hne
        · have hp : processWebhookDelivery d now (.response code) =
              failWebhookDelivery d now code "webhook returned non-2xx status" := by
            simp only [processWebhookDelivery, sendWebhookResult]
            rw [if_neg hc]
          rw [hp]
          exact failWebhookDelivery_spec d now code _ hmax hatt
    | transportError msg =>
        have hp : processWebhookDelivery d now (.transportError msg) =
            failWebhookDelivery d now 0 msg := rfl
        rw [hp]
        exact failWebhookDelivery_spec d now 0 msg hmax hatt

/-- Concrete instantiation of the attempt transition: a fresh delivery
failing with 500 is rescheduled one minute later; one succeeding with 204
is delivered. -/
theorem processWebhookDelivery_transition_witness :
    (processWebhookDelivery freshDelivery 1000 (.response 500)).status = "pending" ∧
    (processWebhookDelivery freshDelivery 1000 (.response 500)).nextAttemptAt = 1060 ∧
    (processWebhookDelivery freshDelivery 1000 (.response 204)).status = "delivered" := by
  have h1 := processWebhookDelivery_transition freshDelivery 1000 (.response 500)
    (by decide) (by decide)
  have h2 := processWebhookDelivery_transition freshDelivery 1000 (.response 204)
    (by decide) (by decide)
  have hfail := h1.2 (by decide)
  refine ⟨(hfail.2.2 (by decide)).1, ?_, ?_⟩
  · have := (hfail.2.2 (by decide)).2 (by decide)
    rw [this]; decide
  · rw [h2.1 204 rfl (by decide) (by decide)]

/-! ## C5: the retry action's selection and update -/

/-- C5 counterexample: the retry action also resets a pending delivery with
a non-empty last error, although it is neither failed nor in progress, so
the claimed selection ("exactly failed plus in-progress with error") is
too narrow. -/
theorem retryReset_counterexample :
    ({ freshDelivery with status := "pending", lastError := "connection refused",
                          nextAttemptAt := 500 } : WebhookDelivery).status ≠ "failed" ∧
    ({ freshDelivery with status := "pending", lastError := "connection refused",
                          nextAttemptAt := 500 } : WebhookDelivery).status ≠ "in_progress" ∧
    (retryFailedWebhookDeliveries 1 1 900
      { freshDelivery with status := "pending", lastError := "connection refused",
                           nextAttemptAt := 500 }).nextAttemptAt = 900 := by decide

/-- C5 (amended): the retry action resets exactly the deliveries of the
addressed webhook that are failed, or pending or in progress with a
non-empty last error, to pending with an immediate next attempt, a
released processing claim, and a cleared error; the attempts counter and
all remaining fields are preserved, and every other row is unchanged. -/
theorem retryReset_characterization (orgID webhookID : Nat) (now : Int) (d : WebhookDelivery) :
    (retryMatches orgID webhookID d = true ↔
      (d.orgID = orgID ∧ d.webhookID = webhookID ∧
        (d.status = "failed" ∨
          ((d.status = "pending" ∨ d.status = "in_progress") ∧ d.lastError ≠ "")))) ∧
    (retryMatches orgID webhookID d = true →
      (retryFailedWebhookDeliveries orgID webhookID now d).status = "pending" ∧
      (retryFailedWebhookDeliveries orgID webhookID now d).nextAttemptAt = now ∧
      (retryFailedWebhookDeliveries orgID webhookID now d).attempts = d.attempts ∧
      (retryFailedWebhookDeliveries orgID webhookID now d).processingStartedAt = none ∧
      (retryFailedWebhookDeliveries orgID webhookID now d).lastError = "" ∧
      (retryFailedWebhookDeliveries orgID webhookID now d).lastStatusCode = 0 ∧
      (retryFailedWebhookDeliveries orgID webhookID now d).maxAttempts = d.maxAttempts ∧
      (retryFailedWebhookDeliveries orgID webhookID now d).deliveredAt = d.deliveredAt ∧
      (retryFailedWebhookDeliveries orgID webhookID now d).orgID = d.orgID ∧
      (retryFailedWebhookDeliveries orgID webhookID now d).webhookID = d.webhookID ∧
      (retryFailedWebhookDeliveries orgID webhookID now d).url = d.url ∧
      (retryFailedWebhookDeliveries orgID webhookID now d).secret = d.secret) ∧
    (retryMatches orgID webhookID d = false →
      retryFailedWebhookDeliveries orgID webhookID now d = d) := by
  refine ⟨?_, ?_, ?_⟩
  · simp [retryMatches, Bool.and_eq_true, Bool.or_eq_true, beq_iff_eq, bne_iff_ne,
      and_assoc]
  · intro h
    unfold retryFailedWebhookDeliveries
    rw [if_pos h]
    exact ⟨rfl, rfl, rfl, rfl, rfl, rfl, rfl, rfl, rfl, rfl, rfl, rfl⟩
  · intro h
    unfold retryFailedWebhookDeliveries
    rw [h]
    rfl

/-- Concrete instantiation of the retry characterization on a failed row. -/
theorem retryReset_characterization_witness :
    retryMatches 1 1 { freshDelivery with status := "failed", attempts := 6 } = true ∧
    (retryFailedWebhookDeliveries 1 1 42
      { freshDelivery with status := "failed", attempts := 6 }).attempts = 6 ∧
    (retryFailedWebhookDeliveries 1 1 42
      { freshDelivery with status := "failed", attempts := 6 }).status = "pending" := by
  have h := retryReset_characterization 1 1 42 { freshDelivery with status := "failed", attempts := 6 }
  have hm : retryMatches 1 1 { freshDelivery with status := "failed", attempts := 6 } = true := by
    decide
  exact ⟨hm, (h.2.1 hm).2.2.1, (h.2.1 hm).1⟩


/-! ## C2: SSRF defense -/

/-- C2 counterexample: with internal URLs allowed, submit-time validation is
not bypassed as a whole; the scheme and hostname requirements still apply,
so an ftp URL and a hostless URL remain rejected. -/
theorem ssrfProtection_counterexample :
    validateWebhookURL { scheme := "ftp", hostname := "example.com" } true =
      .error "URL scheme must be http or https" ∧
    validateWebhookURL { scheme := "http", hostname := "" } true =
      .error "URL must have a hostname" := by decide

/-- C2 (amended): with internal URLs disallowed, submit-time validation
rejects every URL whose scheme is neither http nor https, whose hostname
is empty, whose lowercased hostname is localhost or ends in .local or
.internal, or whose hostname is an IP literal in the loopback, private,
link-local, or unspecified ranges; the post-DNS dialer refuses whenever
any resolved address falls in those ranges; and the allow-internal flag
bypasses exactly the internal-address checks of both guards, while the
scheme and hostname requirements continue to apply. -/
theorem ssrfProtection :
    (∀ (u : ParsedURL) (ai : Bool), u.scheme ≠ "https" → u.scheme ≠ "http" →
      ∃ e, validateWebhookURL u ai = .error e) ∧
    (∀ (u : ParsedURL) (ai : Bool), u.hostname = "" →
      ∃ e, validateWebhookURL u ai = .error e) ∧
    (∀ u : ParsedURL,
      (strLower u.hostname = "localhost" ∨ strEndsWith (strLower u.hostname) ".local" = true ∨
        strEndsWith (strLower u.hostname) ".internal" = true) →
      ∃ e, validateWebhookURL u false = .error e) ∧
    (∀ (u : ParsedURL) (ip : IPAddr), parseIP u.hostname = some ip → ipIsBlocked ip = true →
      ∃ e, validateWebhookURL u false = .error e) ∧
    (∀ (addr s : String) (resolved : List String) (ip : IPAddr),
      s ∈ resolved → parseIP s = some ip → ipIsBlocked ip = true →
      ∃ m, ssrfDial false addr resolved = .refuse m) ∧
    (∀ u : ParsedURL, (u.scheme = "http" ∨ u.scheme = "https") → u.hostname ≠ "" →
      validateWebhookURL u true = .ok ()) ∧
    (∀ (addr : String) (resolved : List String), ssrfDial true addr resolved = .connect addr) := by
  refine ⟨?_, ?_, ?_, ?_, ?_, ?_, ?_⟩
  · intro u ai h1 h2
    have hc : (u.scheme != "https" && u.scheme != "http") = true := by simp [h1, h2]
    exact ⟨"URL scheme must be http or https", by simp [validateWebhookURL, hc]⟩
  · intro u ai h
    cases hs : (u.scheme != "https" && u.scheme != "http")
    · exact ⟨"URL must have a hostname", by simp [validateWebhookURL, hs, h]⟩
    · exact ⟨"URL scheme must be http or https", by simp [validateWebhookURL, hs]⟩
  · intro u h
    cases hs : (u.scheme != "https" && u.scheme != "http")
    · cases hh : (u.hostname == "")
      · have hl : (strLower u.hostname == "localhost" || strLower u.hostname == "0.0.0.0" ||
            strEndsWith (strLower u.hostname) ".local" ||
            strEndsWith (strLower u.hostname) ".internal") = true := by
          rcases h with h | h | h <;> simp [h]
        exact ⟨"URL must not point to internal addresses", by simp [validateWebhookURL, hs, hh, hl]⟩
      · exact ⟨"URL must have a hostname", by simp [validateWebhookURL, hs, hh]⟩
    · exact ⟨"URL scheme must be http or https", by simp [validateWebhookURL, hs]⟩
  · intro u ip hip hblocked
    cases hs : (u.scheme != "https" && u.scheme != "http")
    · cases hh : (u.hostname == "")
      · cases hl : (strLower u.hostname == "localhost" || strLower u.hostname == "0.0.0.0" ||
            strEndsWith (strLower u.hostname) ".local" ||
            strEndsWith (strLower u.hostname) ".internal")
        · exact ⟨"URL must not point to internal addresses", by simp [validateWebhookURL, hs, hh, hl, hip, hblocked]⟩
        · exact ⟨"URL must not point to internal addresses", by simp [validateWebhookURL, hs, hh, hl]⟩
      · exact ⟨"URL must have a hostname", by simp [validateWebhookURL, hs, hh]⟩
    · exact ⟨"URL scheme must be http or https", by simp [validateWebhookURL, hs]⟩
  · intro addr s resolved ip hmem hip hblocked
    cases resolved with
    | nil => cases hmem
    | cons a rest =>
        have hany : ((a :: rest).any (fun t =>
            match parseIP t with
            | some ip => ipIsBlocked ip
            | none => false)) = true := by
          refine List.any_eq_true.mpr ⟨s, hmem, ?_⟩
          rw [hip]
          exact hblocked
        exact ⟨"connection to private address is not allowed", by simp only [ssrfDial, Bool.false_eq_true, if_false, hany, if_true]⟩
  · intro u hscheme hhost
    have hs : (u.scheme != "https" && u.scheme != "http") = false := by
      rcases hscheme with h | h <;> simp [h]
    have hh : (u.hostname == "") = false := by simp [hhost]
    simp [validateWebhookURL, hs, hh]
  · intro addr resolved
    simp [ssrfDial]

/-- Concrete instantiation of the SSRF protection theorem on the spec's
§8.6 examples: a loopback IPv4 literal, the IPv6 loopback, localhost, the
link-local metadata address, and a public name resolving to a private
address are rejected, while the allow-internal flag admits an internal URL
with a valid scheme and connects the dialer unchecked. -/
theorem ssrfProtection_witness :
    (∃ e, validateWebhookURL { scheme := "ftp", hostname := "example.com" } false = .error e) ∧
    (∃ e, validateWebhookURL { scheme := "http", hostname := "" } false = .error e) ∧
    (∃ e, validateWebhookURL { scheme := "http", hostname := "localhost" } false = .error e) ∧
    (∃ e, validateWebhookURL { scheme := "http", hostname := "127.0.0.1" } false = .error e) ∧
    (∃ e, validateWebhookURL { scheme := "http", hostname := "::1" } false = .error e) ∧
    (∃ e, validateWebhookURL { scheme := "http", hostname := "169.254.169.254" } false =
      .error e) ∧
    (∃ m, ssrfDial false "api.example.com:443" ["10.0.0.1"] = .refuse m) ∧
    validateWebhookURL { scheme := "http", hostname := "127.0.0.1" } true = .ok () ∧
    ssrfDial true "api.example.com:443" ["10.0.0.1"] = .connect "api.example.com:443" := by
  refine ⟨?_, ?_, ?_, ?_, ?_, ?_, ?_, ?_, ?_⟩
  · exact ssrfProtection.1 _ false (by decide) (by decide)
  · exact ssrfProtection.2.1 _ false rfl
  · exact ssrfProtection.2.2.1 _ (Or.inl (by decide))
  · exact ssrfProtection.2.2.2.1 _ (.v4 127 0 0 1) (by decide) (by decide)
  · exact ssrfProtection.2.2.2.1 _ (.v6 [0, 0, 0, 0, 0, 0, 0, 1]) (by decide) (by decide)
  · exact ssrfProtection.2.2.2.1 _ (.v4 169 254 169 254) (by decide) (by decide)
  · exact ssrfProtection.2.2.2.2.1 "api.example.com:443" "10.0.0.1" _ (.v4 10 0 0 1)
      (by decide) (by decide) (by decide)
  · exact ssrfProtection.2.2.2.2.2.1 _ (Or.inl rfl) (by decide)
  · exact ssrfProtection.2.2.2.2.2.2 "api.example.com:443" ["10.0.0.1"]

/-! ## C7: media cleanup path safety -/

/-- C7: the sweeper deletes a referenced path exactly when the path has no
two adjacent dots, its absolute resolution sits under the media root, and
it names an existing regular file whose modification time is at or before
the cutoff; in particular no suspicious path, no path resolving outside
the root, no directory, no missing file, and no fresh file is ever
deleted. -/
theorem mediaCleanup_pathSafety (cwd basePath relPath : String) (cutoff : Int)
    (fs : String → Option FsStat) :
    mediaPathDecision cwd basePath relPath cutoff fs = .delete ↔
      (hasDotDot relPath = false ∧ mediaInsideBase cwd basePath relPath = true ∧
        ∃ st, fs (mediaFullAbs cwd basePath relPath) = some st ∧ st.isDir = false ∧
          st.modTime ≤ cutoff) := by
  unfold mediaPathDecision
  cases h1 : hasDotDot relPath
  · cases h2 : mediaInsideBase cwd basePath relPath
    · simp [h2]
    · cases h3 : fs (mediaFullAbs cwd basePath relPath) with
      | none => simp [h2, h3]
      | some st =>
          by_cases h5 : st.modTime > cutoff
          · cases h4 : st.isDir <;> simp [h2, h3, h4, h5]
          · cases h4 : st.isDir
            · simp [h2, h3, h4, h5]
              omega
            · simp [h2, h3, h4, h5]
  · simp [h1]

/-- Concrete instantiation of the path-safety characterization: a stale
regular file under the root is deleted; a traversal path and a fresh file
are skipped. -/
theorem mediaCleanup_pathSafety_witness :
    mediaPathDecision "/w" "/srv/media" "org/a.png" 100
      (fun _ => some { isDir := false, modTime := 50 }) = .delete ∧
    mediaPathDecision "/w" "/srv/media" "../etc/passwd" 100
      (fun _ => some { isDir := false, modTime := 50 }) ≠ .delete ∧
    mediaPathDecision "/w" "/srv/media" "org/fresh.png" 100
      (fun _ => some { isDir := false, modTime := 500 }) ≠ .delete ∧
    mediaPathDecision "/w" "/srv/media" "org" 100
      (fun _ => some { isDir := true, modTime := 50 }) ≠ .delete ∧
    mediaPathDecision "/w" "/srv/media" "org/gone.png" 100 (fun _ => none) ≠ .delete := by
  refine ⟨?_, ?_, ?_, ?_, ?_⟩
  · exact (mediaCleanup_pathSafety "/w" "/srv/media" "org/a.png" 100 _).mpr
      ⟨by decide, by decide, { isDir := false, modTime := 50 }, rfl, rfl, by decide⟩
  · intro h
    have h2 := (mediaCleanup_pathSafety "/w" "/srv/media" "../etc/passwd" 100 _).mp h
    exact absurd h2.1 (by decide)
  · intro h
    obtain ⟨-, -, st, hst, -, hle⟩ :=
      (mediaCleanup_pathSafety "/w" "/srv/media" "org/fresh.png" 100 _).mp h
    cases hst
    exact absurd hle (by decide)
  · intro h
    obtain ⟨-, -, st, hst, hdir, -⟩ :=
      (mediaCleanup_pathSafety "/w" "/srv/media" "org" 100 _).mp h
    cases hst
    exact absurd hdir (by decide)
  · intro h
    obtain ⟨-, -, st, hst, -, -⟩ :=
      (mediaCleanup_pathSafety "/w" "/srv/media" "org/gone.png" 100 _).mp h
    cases hst

/-! ## C8: interactive button rendering -/

/-- C8: sending with no buttons or with more than ten fails; one to three
buttons render in the interactive button format with titles truncated to
twenty bytes; four to ten render in the interactive list format with row
titles truncated to twenty-four bytes. -/
theorem sendInteractiveButtons_spec (bodyText : String) (buttons : List WAButton) :
    (buttons.length = 0 →
      sendInteractiveButtons bodyText buttons = .error "at least one button is required") ∧
    (buttons.length > 10 →
      sendInteractiveButtons bodyText buttons = .error "maximum 10 buttons allowed") ∧
    (1 ≤ buttons.length → buttons.length ≤ 3 →
      sendInteractiveButtons bodyText buttons =
        .ok (.buttonMsg bodyText (buttons.map fun b => (b.id, b.title.take 20)))) ∧
    (4 ≤ buttons.length → buttons.length ≤ 10 →
      sendInteractiveButtons bodyText buttons =
        .ok (.listMsg bodyText "Select an option" "Options"
          (buttons.map fun b => (b.id, b.title.take 24)))) := by
  refine ⟨?_, ?_, ?_, ?_⟩
  · intro h
    have h0 : (buttons.length == 0) = true := by simp [h]
    simp [sendInteractiveButtons, h0]
  · intro h
    have h0 : (buttons.length == 0) = false := by
      simp only [beq_eq_false_iff_ne, ne_eq]
      omega
    have h1 : buttons.length > 10 := h
    simp [sendInteractiveButtons, h0, h1]
  · intro hlo hhi
    have h0 : (buttons.length == 0) = false := by
      simp only [beq_eq_false_iff_ne, ne_eq]
      omega
    have h1 : ¬ buttons.length > 10 := by omega
    simp [sendInteractiveButtons, h0, h1, hhi]
  · intro hlo hhi
    have h0 : (buttons.length == 0) = false := by
      simp only [beq_eq_false_iff_ne, ne_eq]
      omega
    have h1 : ¬ buttons.length > 10 := by omega
    have h2 : ¬ buttons.length ≤ 3 := by omega
    simp [sendInteractiveButtons, h0, h1, h2]

/-- Concrete instantiation of the rendering rules at zero, two, five, and
eleven buttons, with a twenty-five-byte title truncated per format. -/
theorem sendInteractiveButtons_spec_witness :
    sendInteractiveButtons "pick" [] = .error "at least one button is required" ∧
    sendInteractiveButtons "pick"
      [⟨"a", List.replicate 25 65⟩, ⟨"b", [66]⟩] =
      .ok (.buttonMsg "pick" [("a", List.replicate 20 65), ("b", [66])]) ∧
    sendInteractiveButtons "pick"
      [⟨"a", List.replicate 25 65⟩, ⟨"b", [66]⟩, ⟨"c", [67]⟩, ⟨"d", [68]⟩, ⟨"e", [69]⟩] =
      .ok (.listMsg "pick" "Select an option" "Options"
        [("a", List.replicate 24 65), ("b", [66]), ("c", [67]), ("d", [68]), ("e", [69])]) ∧
    sendInteractiveButtons "pick" (List.replicate 11 ⟨"x", [88]⟩) =
      .error "maximum 10 buttons allowed" := by
  refine ⟨?_, ?_, ?_, ?_⟩
  · exact (sendInteractiveButtons_spec "pick" []).1 rfl
  · rw [(sendInteractiveButtons_spec "pick" _).2.2.1 (by decide) (by decide)]
    decide
  · rw [(sendInteractiveButtons_spec "pick" _).2.2.2 (by decide) (by decide)]
    decide
  · exact (sendInteractiveButtons_spec "pick" _).2.1 (by decide)

/-! ## C9: WebSocket authentication -/

/-- C9: an upgrade request without a token, or whose token fails validation
against the configured secret, is answered 401 Unauthorized and is never
registered (the connection is not upgraded); a valid token registers the
client under the user and organization identifiers of the token's claims. -/
theorem webSocketHandler_auth (secret : String) (now : Int) (token : Option WSToken) :
    (token = none → webSocketHandler secret now token = .unauthorized "Missing token") ∧
    (∀ t, token = some t → validateWSToken secret now t = false →
      webSocketHandler secret now token = .unauthorized "Invalid token" ∧
      ∀ uid oid, webSocketHandler secret now token ≠ .registered uid oid) ∧
    (∀ t, token = some t → validateWSToken secret now t = true →
      webSocketHandler secret now token = .registered t.claims.userID t.claims.organizationID) := by
  refine ⟨?_, ?_, ?_⟩
  · intro h
    subst h
    rfl
  · intro t ht hv
    subst ht
    constructor
    · simp [webSocketHandler, hv]
    · intro uid oid
      simp [webSocketHandler, hv]
  · intro t ht hv
    subst ht
    simp [webSocketHandler, hv]

/-- Concrete instantiation of the WebSocket authentication dispatch: a
missing token and an expired signed token are rejected, and a fresh signed
token registers the client under its claims. -/
theorem webSocketHandler_auth_witness :
    webSocketHandler "jwt-secret" 50 none = .unauthorized "Missing token" ∧
    webSocketHandler "jwt-secret" 50
      (some (signWSToken "jwt-secret" ⟨"user-1", "org-1"⟩ (some 40))) =
      .unauthorized "Invalid token" ∧
    webSocketHandler "jwt-secret" 50
      (some (signWSToken "jwt-secret" ⟨"user-1", "org-1"⟩ (some 60))) =
      .registered "user-1" "org-1" := by
  have hbad : validateWSToken "jwt-secret" 50
      (signWSToken "jwt-secret" ⟨"user-1", "org-1"⟩ (some 40)) = false := by
    simp [validateWSToken, signWSToken]
  have hgood : validateWSToken "jwt-secret" 50
      (signWSToken "jwt-secret" ⟨"user-1", "org-1"⟩ (some 60)) = true := by
    simp [validateWSToken, signWSToken]
  refine ⟨?_, ?_, ?_⟩
  · exact (webSocketHandler_auth "jwt-secret" 50 none).1 rfl
  · exact ((webSocketHandler_auth "jwt-secret" 50 _).2.1 _ rfl hbad).1
  · exact (webSocketHandler_auth "jwt-secret" 50 _).2.2 _ rfl hgood

/-! ## C6: shape of the outbound delivery request -/

/-- The header list of a built webhook request, spelled out. -/
theorem sendWebhookRequest_headers (url : String) (headers : List (String × JVal))
    (secret : String) (jsonData : List Nat) :
    (sendWebhookRequest url headers secret jsonData).headers =
      (if secret != "" then
        setHeader (applyCustomHeaders headers
            (setHeader (setHeader [] "Content-Type" "application/json")
              "User-Agent" "Whatomate-Webhook/1.0"))
          "X-Webhook-Signature" (computeHMACSignature jsonData secret)
      else applyCustomHeaders headers
        (setHeader (setHeader [] "Content-Type" "application/json")
          "User-Agent" "Whatomate-Webhook/1.0")) := rfl

/-- C6 counterexample: with an empty secret no signature header is added,
and a custom header named Content-Type silently replaces the JSON content
type, so neither "every request carries a signature" nor "every request
carries Content-Type: application/json together with every custom header"
holds as stated (the numeric-valued custom header is also dropped). -/
theorem outboundWebhookRequest_counterexample :
    getHeader (sendWebhookRequest "https://e.example/h"
      [("Content-Type", .str "text/plain"), ("X-Num", .num 7)] "" [123]).headers
      "X-Webhook-Signature" = none ∧
    getHeader (sendWebhookRequest "https://e.example/h"
      [("Content-Type", .str "text/plain"), ("X-Num", .num 7)] "" [123]).headers
      "Content-Type" = some "text/plain" ∧
    getHeader (sendWebhookRequest "https://e.example/h"
      [("Content-Type", .str "text/plain"), ("X-Num", .num 7)] "" [123]).headers
      "X-Num" = none := by decide

/-- C6 (amended): every delivery attempt posts the JSON-encoded envelope
(delivery id, event, timestamp, data) as the request body; Content-Type
and User-Agent are set unless a custom header reuses those names; every
string-valued custom header with a duplicate-free key other than the
signature name is carried; and exactly when the webhook's secret is
non-empty the request carries an X-Webhook-Signature header holding
"sha256=" plus the hex HMAC-SHA-256 of the exact body bytes under the
secret. -/
theorem outboundWebhookRequest (orgID webhookID : Nat) (url : String)
    (headers : List (String × JVal)) (secret : String)
    (deliveryID event timestamp : String) (data : JVal) (now : Int) (req : HttpRequest)
    (hreq : req = deliveryHttpRequest
      (enqueuedDelivery orgID webhookID url headers secret deliveryID event timestamp data now)) :
    req.method = "POST" ∧
    req.url = url ∧
    req.body = strBytes (jsonEncode (envelopeJson deliveryID event timestamp data)) ∧
    ("Content-Type" ∉ headers.map Prod.fst →
      getHeader req.headers "Content-Type" = some "application/json") ∧
    ("User-Agent" ∉ headers.map Prod.fst →
      getHeader req.headers "User-Agent" = some "Whatomate-Webhook/1.0") ∧
    (∀ k v, (k, JVal.str v) ∈ headers → (headers.map Prod.fst).Nodup →
      k ≠ "X-Webhook-Signature" → getHeader req.headers k = some v) ∧
    (secret ≠ "" → getHeader req.headers "X-Webhook-Signature" =
      some (computeHMACSignature
        (strBytes (jsonEncode (envelopeJson deliveryID event timestamp data))) secret)) ∧
    (secret = "" → "X-Webhook-Signature" ∉ headers.map Prod.fst →
      getHeader req.headers "X-Webhook-Signature" = none) := by
  subst hreq
  have hh : (deliveryHttpRequest
      (enqueuedDelivery orgID webhookID url headers secret deliveryID event timestamp data now)).headers =
      (sendWebhookRequest url headers secret
        (strBytes (jsonEncode (envelopeJson deliveryID event timestamp data)))).headers := rfl
  refine ⟨rfl, rfl, rfl, ?_, ?_, ?_, ?_, ?_⟩
  · intro hct
    rw [hh, sendWebhookRequest_headers]
    cases hsec : (secret != "")
    · rw [if_neg (by simp)]
      rw [applyCustomHeaders_not_mem _ _ _ hct]
      rw [getHeader_setHeader_other _ _ _ _ (by decide)]
      exact getHeader_setHeader_same _ _ _
    · rw [if_pos rfl]
      rw [getHeader_setHeader_other _ _ _ _ (by decide)]
      rw [applyCustomHeaders_not_mem _ _ _ hct]
      rw [getHeader_setHeader_other _ _ _ _ (by decide)]
      exact getHeader_setHeader_same _ _ _
  · intro hua
    rw [hh, sendWebhookRequest_headers]
    cases hsec : (secret != "")
    · rw [if_neg (by simp)]
      rw [applyCustomHeaders_not_mem _ _ _ hua]
      exact getHeader_setHeader_same _ _ _
    · rw [if_pos rfl]
      rw [getHeader_setHeader_other _ _ _ _ (by decide)]
      rw [applyCustomHeaders_not_mem _ _ _ hua]
      exact getHeader_setHeader_same _ _ _
  · intro k v hmem hnd hk
    rw [hh, sendWebhookRequest_headers]
    cases hsec : (secret != "")
    · rw [if_neg (by simp)]
      exact applyCustomHeaders_mem _ _ _ _ hnd hmem
    · rw [if_pos rfl]
      rw [getHeader_setHeader_other _ _ _ _ hk]
      exact applyCustomHeaders_mem _ _ _ _ hnd hmem
  · intro hsecret
    rw [hh, sendWebhookRequest_headers]
    rw [if_pos (by simp [hsecret])]
    exact getHeader_setHeader_same _ _ _
  · intro hsecret hsig
    rw [hh, sendWebhookRequest_headers]
    rw [if_neg (by simp [hsecret])]
    rw [applyCustomHeaders_not_mem _ _ _ hsig]
    rw [getHeader_setHeader_other _ _ _ _ (by decide)]
    rw [getHeader_setHeader_other _ _ _ _ (by decide)]
    rfl

/-- Concrete instantiation of the outbound request shape with a non-empty
secret and one custom header. -/
theorem outboundWebhookRequest_witness :
    (deliveryHttpRequest (enqueuedDelivery 1 2 "https://e.example/h"
      [("X-Custom", JVal.str "yes")] "s3cret" "d-1" "message_incoming"
      "2026-01-01T00:00:00Z" JVal.null 0)).method = "POST" ∧
    getHeader (deliveryHttpRequest (enqueuedDelivery 1 2 "https://e.example/h"
      [("X-Custom", JVal.str "yes")] "s3cret" "d-1" "message_incoming"
      "2026-01-01T00:00:00Z" JVal.null 0)).headers "X-Custom" = some "yes" ∧
    getHeader (deliveryHttpRequest (enqueuedDelivery 1 2 "https://e.example/h"
      [("X-Custom", JVal.str "yes")] "s3cret" "d-1" "message_incoming"
      "2026-01-01T00:00:00Z" JVal.null 0)).headers "X-Webhook-Signature" =
      some (computeHMACSignature (strBytes (jsonEncode
        (envelopeJson "d-1" "message_incoming" "2026-01-01T00:00:00Z" JVal.null))) "s3cret") := by
  have h := outboundWebhookRequest 1 2 "https://e.example/h" [("X-Custom", JVal.str "yes")]
    "s3cret" "d-1" "message_incoming" "2026-01-01T00:00:00Z" JVal.null 0 _ rfl
  refine ⟨h.1, ?_, h.2.2.2.2.2.2.1 (by decide)⟩
  exact h.2.2.2.2.2.1 "X-Custom" "yes" (List.Mem.head _) (by simp) (by decide)

/-! ## C10: the non-empty-secret invariant of the CRUD handlers -/

/-- The field-wise tail of an update never clears a non-empty secret. -/
theorem updateWebhookRest_secret (w : WebhookRecord) (req : WebhookReq)
    (h : w.secret ≠ "") : (updateWebhookRest w req).secret ≠ "" := by
  by_cases hs : req.secret = ""
  · have hb : (req.secret != "") = false := by simp [hs]
    simp only [updateWebhookRest, hb, Bool.false_eq_true, if_false]
    cases hh : req.headers <;> by_cases he : req.events.length > 0 <;>
      simp [hh, he, h]
  · have hb : (req.secret != "") = true := by simp [hs]
    simp only [updateWebhookRest, hb, if_true]
    cases hh : req.headers <;> by_cases he : req.events.length > 0 <;>
      simp [hh, he, hs]

/-- C10: creating a webhook always stores a non-empty secret (an omitted
secret is replaced by a generated one); updating never clears a non-empty
secret (an omitted secret leaves the stored one unchanged); and any
delivery request sent with a non-empty secret carries the HMAC signature
header. -/
theorem webhookSecret_invariant :
    (∀ (req : WebhookReq) (ai : Bool) (entropy : Nat → Nat) (w : WebhookRecord),
      createWebhook req ai entropy = .ok w → w.secret ≠ "") ∧
    (∀ (w : WebhookRecord) (req : WebhookReq) (ai : Bool) (w2 : WebhookRecord),
      w.secret ≠ "" → updateWebhook w req ai = .ok w2 → w2.secret ≠ "") ∧
    (∀ (url : String) (headers : List (String × JVal)) (secret : String) (body : List Nat),
      secret ≠ "" →
      getHeader (sendWebhookRequest url headers secret body).headers "X-Webhook-Signature" =
        some (computeHMACSignature body secret)) := by
  refine ⟨?_, ?_, ?_⟩
  · intro req ai entropy w h
    unfold createWebhook at h
    split at h
    · exact Except.noConfusion h
    · split at h
      · exact Except.noConfusion h
      · split at h
        · exact Except.noConfusion h
        · split at h
          · exact Except.noConfusion h
          · injection h with h2
            rw [← h2]
            show (if req.secret == "" then generateVerifyToken entropy else req.secret) ≠ ""
            cases hs : (req.secret == "")
            · rw [if_neg (by simp)]
              simpa using hs
            · rw [if_pos rfl]
              exact generateVerifyToken_ne_empty entropy
  · intro w req ai w2 hne h
    unfold updateWebhook at h
    split at h
    · split at h
      · split at h
        · exact Except.noConfusion h
        · injection h with h2
          rw [← h2]
          exact updateWebhookRest_secret _ _ hne
      · injection h with h2
        rw [← h2]
        exact updateWebhookRest_secret _ _ hne
    · dsimp only at h
      split at h
      · split at h
        · exact Except.noConfusion h
        · injection h with h2
          rw [← h2]
          exact updateWebhookRest_secret _ _ hne
      · injection h with h2
        rw [← h2]
        exact updateWebhookRest_secret _ _ hne
  · intro url headers secret body hsecret
    rw [sendWebhookRequest_headers]
    rw [if_pos (by simp [hsecret])]
    exact getHeader_setHeader_same _ _ _

/-- Concrete instantiation of the secret invariant: a create request with
an empty secret succeeds with a non-empty stored secret, an update request
with an empty secret preserves it, and the resulting delivery request
carries the signature header. -/
theorem webhookSecret_invariant_witness :
    (∃ w, createWebhook
        { name := "n", url := some { scheme := "https", hostname := "api.example.com" },
          events := ["message_incoming"], headers := none, secret := "", isActive := true }
        false (fun _ => 0) = .ok w ∧ w.secret ≠ "") ∧
    (∃ w2, updateWebhook
        { name := "n", url := { scheme := "https", hostname := "api.example.com" },
          events := ["message_incoming"], headers := [], secret := "s3cret", isActive := true }
        { name := "", url := none, events := [], headers := none, secret := "",
          isActive := true }
        false = .ok w2 ∧ w2.secret ≠ "") ∧
    getHeader (sendWebhookRequest "https://e.example/h" [] "s3cret" [123]).headers
      "X-Webhook-Signature" = some (computeHMACSignature [123] "s3cret") := by
  refine ⟨?_, ?_, ?_⟩
  · have hcre : createWebhook
        { name := "n", url := some { scheme := "https", hostname := "api.example.com" },
          events := ["message_incoming"], headers := none, secret := "", isActive := true }
        false (fun _ => 0) = .ok
        { name := "n", url := { scheme := "https", hostname := "api.example.com" },
          events := ["message_incoming"], headers := [],
          secret := generateVerifyToken (fun _ => 0), isActive := true } := by rfl
    exact ⟨_, hcre, webhookSecret_invariant.1 _ false (fun _ => 0) _ hcre⟩
  · have hupd : updateWebhook
        { name := "n", url := { scheme := "https", hostname := "api.example.com" },
          events := ["message_incoming"], headers := [], secret := "s3cret", isActive := true }
        { name := "", url := none, events := [], headers := none, secret := "",
          isActive := true }
        false = .ok
        { name := "n", url := { scheme := "https", hostname := "api.example.com" },
          events := ["message_incoming"], headers := [], secret := "s3cret",
          isActive := true } := by rfl
    exact ⟨_, hupd, webhookSecret_invariant.2.1 _ _ false _ (by decide) hupd⟩
  · exact webhookSecret_invariant.2.2 "https://e.example/h" [] "s3cret" [123] (by decide)
